import Mathlib

/-!
Shallow embedding of the biasbreaker backend core pipeline
(app/db/models.py, app/db/model.py, app/db/cruds.py, app/main.py,
app/services/process.py, app/services/extract.py).

Database tables are modelled as Lean lists of records; SQLAlchemy commits
become pure state transformers.  Network calls and third-party parsers are
modelled by outcome oracles supplied as explicit arguments, so that every
possible response (success body, non-200 status, raised exception) is a
concrete input to the embedded function.
-/

set_option autoImplicit false

namespace BiasBreaker

/-- Job lifecycle states, from `class AnalysisStatus` in app/db/models.py. -/
inductive AnalysisStatus
  | FAILED
  | PENDING
  | COMPLETED
  | PROCESSING
deriving DecidableEq, Repr

/-- The `details` JSONB column: an open attribute map, modelled as an
association list of string keys and string values (values are only ever
plumbed through, never inspected). -/
abbrev Details := List (String × String)

/-- One row of the `resume_analyses` table, from `class ResumeAnalysis` in
app/db/models.py.  `id`/`user_id` UUIDs are modelled as strings;
`match_score` is a `Float` column, modelled as `Rat`. -/
structure ResumeAnalysis where
  id : String
  user_id : String
  filename : String
  s3_key : Option String
  status : AnalysisStatus
  match_score : Rat
  details : Option Details
deriving DecidableEq, Repr

/-- One history entry, a snapshot dict with a `"filename"` key plus analysis
data (save_to_history in app/main.py reads `r["filename"]`). -/
structure HistEntry where
  filename : String
  ml_analysis : Details
deriving DecidableEq, Repr

/-- One row of the `users` table, following `class User` in app/db/model.py,
which carries the `analysis_history` and `processed_filenames` columns that
`save_to_history` mutates (authentication fields are never touched by the
core and are kept only as `email`). -/
structure UserRec where
  id : String
  email : String
  analysis_history : List HistEntry
  processed_filenames : List String
deriving DecidableEq, Repr

/-- The full database state: the two tables the pipeline can reach. -/
structure DBState where
  jobs : List ResumeAnalysis
  users : List UserRec
deriving DecidableEq, Repr

/-- `create_initial_record` from app/db/cruds.py: inserts a row with
`id = file_id or uuid.uuid4()`, `status=PROCESSING`, `match_score=0.0`,
`details={}`.  The freshly drawn UUID is passed in as `fresh_uuid`.
Returns the new table contents together with the created row. -/
def create_initial_record (db : List ResumeAnalysis) (user_id : String)
    (filename : String) (s3_key : Option String) (file_id : Option String)
    (fresh_uuid : String) : List ResumeAnalysis × ResumeAnalysis :=
  let db_record : ResumeAnalysis :=
    { id := file_id.getD fresh_uuid
      user_id := user_id
      filename := filename
      s3_key := s3_key
      status := AnalysisStatus.PROCESSING
      match_score := 0
      details := some [] }
  (db ++ [db_record], db_record)

/-- The record mutation performed by `update_file_record` on the row it
found: status is always written, `match_score` and `details` only when the
corresponding optional argument was provided (`is not None`). -/
def applyUpdate (r : ResumeAnalysis) (status : AnalysisStatus)
    (score : Option Rat) (details : Option Details) : ResumeAnalysis :=
  { r with
    status := status
    match_score := match score with | some s => s | none => r.match_score
    details := match details with | some d => some d | none => r.details }

/-- `update_file_record` from app/db/cruds.py: finds the first row whose id
matches `file_id` and mutates it in place; when no row matches, nothing
changes and `None` is returned. -/
def update_file_record (db : List ResumeAnalysis) (file_id : String)
    (status : AnalysisStatus) (score : Option Rat) (details : Option Details) :
    List ResumeAnalysis × Option ResumeAnalysis :=
  match db with
  | [] => ([], none)
  | r :: rest =>
    if r.id = file_id then
      (applyUpdate r status score details :: rest,
       some (applyUpdate r status score details))
    else
      let res := update_file_record rest file_id status score details
      (r :: res.1, res.2)

/-- Python `l[-n:]`: the last `n` elements (the whole list when shorter). -/
def pyTakeLast (n : Nat) (l : List String) : List String :=
  l.drop (l.length - n)

/-- `save_to_history` from app/main.py: no-op on an empty result list;
otherwise prepends the new results to `analysis_history`, truncates to the
first 100, and appends the new filenames to `processed_filenames`, keeping
the last 100. -/
def save_to_history (user : UserRec) (new_results : List HistEntry) : UserRec :=
  if new_results = [] then user
  else
    { user with
      analysis_history := (new_results ++ user.analysis_history).take 100
      processed_filenames :=
        pyTakeLast 100
          (user.processed_filenames ++ new_results.map (fun r => r.filename)) }

/-- The JSON body of a 200 scoring-service response, as consumed via
`ml_data.get("match_score", 0)` / `ml_data.get("analysis_details", {})`:
each key may be absent. -/
structure MLBody where
  match_score : Option Rat
  analysis_details : Option Details
deriving DecidableEq, Repr

/-- Outcome of one `client.post` to the scoring service:
either a response arrived (with its status code, and `some` parsed body or
`none` when `resp.json()` raises), or the call itself raised
(timeout / transport error). -/
inductive ScoreOutcome
  | resp (status_code : Nat) (json : Option MLBody)
  | exn
deriving DecidableEq, Repr

/-- One Drive listing entry (`fields(id, name, mimeType)` in app/main.py). -/
structure DriveFile where
  id : String
  name : String
  mimeType : String
deriving DecidableEq, Repr

/-- Fault model for one file of a drive batch: either
`create_initial_record`'s commit raises (outside the per-file try block),
or creation succeeds and the scoring call has the given outcome. -/
inductive FileOutcome
  | createFails
  | scored (o : ScoreOutcome)
deriving DecidableEq, Repr

/-- Whether this file's outcome reached the scoring phase. -/
def FileOutcome.isScored : FileOutcome → Bool
  | .createFails => false
  | .scored _ => true

/-- `ml_analysis_s3` from app/services/process.py, for a given response
outcome: on status 200 with a parsed body the job is completed with
`match_score` (default 0) and `analysis_details` (default `{}`); on any
other status, a JSON parse error, or a raised call, the job is failed. -/
def ml_analysis_s3 (db : List ResumeAnalysis) (file_id : String)
    (outcome : ScoreOutcome) : List ResumeAnalysis :=
  match outcome with
  | .resp status_code json =>
    if status_code = 200 then
      match json with
      | some ml_data =>
        (update_file_record db file_id AnalysisStatus.COMPLETED
          (some (ml_data.match_score.getD 0))
          (some (ml_data.analysis_details.getD []))).1
      | none => (update_file_record db file_id AnalysisStatus.FAILED none none).1
    else (update_file_record db file_id AnalysisStatus.FAILED none none).1
  | .exn => (update_file_record db file_id AnalysisStatus.FAILED none none).1

/-- The body of the per-file loop of `ml_analysis_drive`: create the
placeholder row (s3_key `None`, id a fresh UUID), then write the terminal
status according to the scoring outcome, exactly as in the source's
`try`/`except` around the `client.post`. -/
def drive_process_file (db : List ResumeAnalysis) (user_id : String)
    (f : DriveFile) (o : ScoreOutcome) (fresh_uuid : String) :
    List ResumeAnalysis :=
  let created := create_initial_record db user_id f.name none none fresh_uuid
  let db1 := created.1
  let record := created.2
  match o with
  | .resp status_code json =>
    if status_code = 200 then
      match json with
      | some ml_data =>
        (update_file_record db1 record.id AnalysisStatus.COMPLETED
          (some (ml_data.match_score.getD 0))
          (some (ml_data.analysis_details.getD []))).1
      | none => (update_file_record db1 record.id AnalysisStatus.FAILED none none).1
    else (update_file_record db1 record.id AnalysisStatus.FAILED none none).1
  | .exn => (update_file_record db1 record.id AnalysisStatus.FAILED none none).1

/-- Result of running a drive batch task: the database it left behind and
whether an exception escaped the task (only a `create_initial_record`
failure can, because it sits outside the per-file `try` block). -/
structure DriveRun where
  state : DBState
  raised : Bool
deriving DecidableEq, Repr

/-- `ml_analysis_drive` from app/services/process.py: iterate over the
batch in listing order, each file paired with its fault-model outcome and
a fresh UUID.  A `createFails` outcome propagates out of the loop at once;
all other faults are absorbed per file.  The `users` table is never
touched by this function, exactly as in the source (it only calls
`create_initial_record` / `update_file_record` on `resume_analyses`). -/
def ml_analysis_drive (st : DBState) (user_id : String)
    (files : List (DriveFile × FileOutcome × String)) : DriveRun :=
  match files with
  | [] => ⟨st, false⟩
  | (_, FileOutcome.createFails, _) :: _ => ⟨st, true⟩
  | (f, FileOutcome.scored o, fresh) :: rest =>
    ml_analysis_drive ⟨drive_process_file st.jobs user_id f o fresh, st.users⟩
      user_id rest

/-- The row a drive-mode file ends with when creation succeeded: the
placeholder row as created, then updated per the scoring outcome. -/
def created_record (user_id : String) (f : DriveFile) (fresh_uuid : String) :
    ResumeAnalysis :=
  { id := fresh_uuid
    user_id := user_id
    filename := f.name
    s3_key := none
    status := AnalysisStatus.PROCESSING
    match_score := 0
    details := some [] }

/-- Terminal row for a drive-mode file, by scoring outcome. -/
def scored_record (user_id : String) (f : DriveFile) (o : ScoreOutcome)
    (fresh_uuid : String) : ResumeAnalysis :=
  match o with
  | .resp status_code json =>
    if status_code = 200 then
      match json with
      | some ml_data =>
        applyUpdate (created_record user_id f fresh_uuid)
          AnalysisStatus.COMPLETED
          (some (ml_data.match_score.getD 0))
          (some (ml_data.analysis_details.getD []))
      | none =>
        applyUpdate (created_record user_id f fresh_uuid)
          AnalysisStatus.FAILED none none
    else
      applyUpdate (created_record user_id f fresh_uuid)
        AnalysisStatus.FAILED none none
  | .exn =>
    applyUpdate (created_record user_id f fresh_uuid)
      AnalysisStatus.FAILED none none

/-- Terminal status by scoring outcome: COMPLETED on a parsed 200,
FAILED otherwise. -/
def outcomeStatus : ScoreOutcome → AnalysisStatus
  | .resp status_code json =>
    if status_code = 200 then
      match json with
      | some _ => AnalysisStatus.COMPLETED
      | none => AnalysisStatus.FAILED
    else AnalysisStatus.FAILED
  | .exn => AnalysisStatus.FAILED

/-- The rows a drive batch appends to `resume_analyses`, and whether the
batch task raised: processing stops at the first `createFails`. -/
def drive_batch_records (user_id : String) :
    List (DriveFile × FileOutcome × String) → List ResumeAnalysis × Bool
  | [] => ([], false)
  | (_, FileOutcome.createFails, _) :: _ => ([], true)
  | (f, FileOutcome.scored o, fresh) :: rest =>
    let t := drive_batch_records user_id rest
    (scored_record user_id f o fresh :: t.1, t.2)

/-- Status of the first row with the given id, if any. -/
def statusOf (db : List ResumeAnalysis) (file_id : String) :
    Option AnalysisStatus :=
  (db.find? (fun r => r.id = file_id)).map (fun r => r.status)

/-- Characters Python's `str.strip()` removes at either end (ASCII). -/
def isPySpace (c : Char) : Bool :=
  c = ' ' || c = '\t' || c = '\n' || c = '\r' || c = '\x0b' || c = '\x0c'

/-- Strip a leading and trailing run of `p`-characters from a list. -/
def stripList {α : Type} (p : α → Bool) (l : List α) : List α :=
  ((l.dropWhile p).reverse.dropWhile p).reverse

/-- Python `str.strip()` on ASCII whitespace. -/
def pyStrip (s : String) : String :=
  String.mk (stripList isPySpace s.data)

/-- Outcomes of the third-party parsers used by `extract_text`:
`pdf_pages` is the list of `page.extract_text()` results for
`PdfReader(stream).pages` (`none` when PyPDF2 raises anywhere in that
branch), `docx_paragraphs` the list of `para.text` values (`none` when
python-docx raises), and `utf8_decoded` the result of
`content.decode("utf-8", errors="ignore")`, which cannot raise. -/
structure ParseOracle where
  pdf_pages : Option (List String)
  docx_paragraphs : Option (List String)
  utf8_decoded : String
deriving DecidableEq, Repr

/-- The value the `text` variable of `extract_text` holds when the final
`return text.strip()` is reached: the per-media-type branch result, with a
caught parser exception leaving the initial `""` (the source assigns
`text` only at the end of each branch). -/
def extract_raw_text (mime_type : String) (o : ParseOracle) : String :=
  if mime_type = "application/pdf" then
    match o.pdf_pages with
    | some pages => String.intercalate " " (pages.filter (fun t => t ≠ ""))
    | none => ""
  else if mime_type =
      "application/vnd.openxmlformats-officedocument.wordprocessingml.document" then
    match o.docx_paragraphs with
    | some paras => String.intercalate " " (paras.filter (fun t => t ≠ ""))
    | none => ""
  else if mime_type = "text/plain" then
    o.utf8_decoded
  else ""

/-- `extract_text` from app/services/extract.py.  Raw bytes are modelled as
`List Nat`.  Empty content returns `""` at once; otherwise the branch text
is computed (a fault degrading it to `""`) and stripped.  The embedded
function is total, mirroring the guarantee that no exception escapes. -/
def extract_text (content : List Nat) (mime_type : String) (o : ParseOracle) :
    String :=
  if content = [] then ""
  else pyStrip (extract_raw_text mime_type o)

/-- A JSON value as it occurs in the request payloads the dispatcher
builds: the source only ever sends string fields; the array constructor
exists so the spec's claimed token-list field is expressible. -/
inductive JVal
  | str (v : String)
  | arr (vs : List String)
deriving DecidableEq, Repr

/-- The JSON payload `ml_analysis_s3` posts to `/analyze-s3`
(app/services/process.py): exactly three string fields. -/
def s3_payload (filename : String) (s3_url : String) (description : String) :
    List (String × JVal) :=
  [("filename", JVal.str filename),
   ("file_url", JVal.str s3_url),
   ("description", JVal.str description)]

/-- The JSON payload `ml_analysis_drive` posts to `/analyze-drive`
(app/services/process.py): exactly five string fields. -/
def drive_payload (f : DriveFile) (google_token : String)
    (description : String) : List (String × JVal) :=
  [("file_id", JVal.str f.id),
   ("google_token", JVal.str google_token),
   ("filename", JVal.str f.name),
   ("mime_type", JVal.str f.mimeType),
   ("description", JVal.str description)]

/-- A word character in the sense of the regex class `\w`. -/
def isWordChar (c : Char) : Bool :=
  c.isAlphanum || c = '_'

/-- Modelled from the spec: the word-token accumulator for `tokenize`;
no tokenization exists anywhere in the source's dispatch path, so this
definition follows the spec's words (regex-style `\w+` matching over the
lowercased text) and is used only to state the tokenization claim. -/
def tokenizeAux : List Char → List Char → List String
  | [], acc => if acc.isEmpty then [] else [String.mk acc.reverse]
  | c :: rest, acc =>
    if isWordChar c then tokenizeAux rest (c :: acc)
    else if acc.isEmpty then tokenizeAux rest []
    else String.mk acc.reverse :: tokenizeAux rest []

/-- Modelled from the spec: lowercase `\w+` word tokens of a string
("tokenize into a lowercase sequence of word tokens"). -/
def tokenize (s : String) : List String :=
  tokenizeAux (s.data.map Char.toLower) []

/-! ## Helper lemmas -/

theorem update_file_record_nomatch (db : List ResumeAnalysis)
    (file_id : String) (status : AnalysisStatus) (score : Option Rat)
    (details : Option Details) (h : ∀ r ∈ db, r.id ≠ file_id) :
    update_file_record db file_id status score details = (db, none) := by
  induction db with
  | nil => rfl
  | cons r rest ih =>
    have hr : r.id ≠ file_id := h r (List.mem_cons_self r rest)
    have hrest : ∀ x ∈ rest, x.id ≠ file_id :=
      fun x hx => h x (List.mem_cons_of_mem r hx)
    simp [update_file_record, hr, ih hrest]

theorem update_file_record_append_last (db : List ResumeAnalysis)
    (rec : ResumeAnalysis) (status : AnalysisStatus) (score : Option Rat)
    (details : Option Details) (h : ∀ r ∈ db, r.id ≠ rec.id) :
    update_file_record (db ++ [rec]) rec.id status score details =
      (db ++ [applyUpdate rec status score details],
       some (applyUpdate rec status score details)) := by
  induction db with
  | nil => simp [update_file_record]
  | cons r rest ih =>
    have hr : r.id ≠ rec.id := h r (List.mem_cons_self r rest)
    have hrest := ih (fun x hx => h x (List.mem_cons_of_mem r hx))
    simp [update_file_record, hr, hrest]

theorem applyUpdate_id (r : ResumeAnalysis) (status : AnalysisStatus)
    (score : Option Rat) (details : Option Details) :
    (applyUpdate r status score details).id = r.id := rfl

theorem update_file_record_find (db : List ResumeAnalysis) (file_id : String)
    (status : AnalysisStatus) (score : Option Rat) (details : Option Details) :
    (update_file_record db file_id status score details).1.find?
        (fun r => r.id = file_id)
      = (db.find? (fun r => r.id = file_id)).map
          (fun r => applyUpdate r status score details)
    ∧ (update_file_record db file_id status score details).2
      = (db.find? (fun r => r.id = file_id)).map
          (fun r => applyUpdate r status score details) := by
  induction db with
  | nil => simp [update_file_record]
  | cons r rest ih =>
    by_cases hr : r.id = file_id
    · simp [update_file_record, hr, List.find?_cons, applyUpdate_id]
    · simp [update_file_record, hr, List.find?_cons, ih.1, ih.2]

theorem find?_append_left_none {α : Type} (p : α → Bool) (l1 l2 : List α)
    (h : ∀ x ∈ l1, p x = false) :
    (l1 ++ l2).find? p = l2.find? p := by
  induction l1 with
  | nil => rfl
  | cons a t ih =>
    have ha := h a (List.mem_cons_self a t)
    have ht := ih (fun x hx => h x (List.mem_cons_of_mem a hx))
    simp [List.find?_cons, ha, ht]

theorem scored_record_id (uid : String) (f : DriveFile) (o : ScoreOutcome)
    (fresh : String) : (scored_record uid f o fresh).id = fresh := by
  cases o with
  | exn => rfl
  | resp code json =>
    by_cases h : code = 200
    · cases json <;> simp [scored_record, h, applyUpdate_id, created_record]
    · simp [scored_record, h, applyUpdate_id, created_record]

theorem scored_record_status (uid : String) (f : DriveFile) (o : ScoreOutcome)
    (fresh : String) :
    (scored_record uid f o fresh).status = outcomeStatus o := by
  cases o with
  | exn => rfl
  | resp code json =>
    by_cases h : code = 200
    · cases json <;> simp [scored_record, outcomeStatus, h, applyUpdate]
    · simp [scored_record, outcomeStatus, h, applyUpdate]

theorem drive_process_file_eq (db : List ResumeAnalysis) (uid : String)
    (f : DriveFile) (o : ScoreOutcome) (fresh : String)
    (h : ∀ r ∈ db, r.id ≠ fresh) :
    drive_process_file db uid f o fresh =
      db ++ [scored_record uid f o fresh] := by
  have h' : ∀ r ∈ db, r.id ≠ (created_record uid f fresh).id := h
  have hcreate : create_initial_record db uid f.name none none fresh =
      (db ++ [created_record uid f fresh], created_record uid f fresh) := rfl
  cases o with
  | exn =>
    simp only [drive_process_file, hcreate]
    rw [update_file_record_append_last db _ _ _ _ h']
    rfl
  | resp code json =>
    by_cases hc : code = 200
    · cases json with
      | none =>
        simp only [drive_process_file, hcreate, hc, if_true]
        rw [update_file_record_append_last db _ _ _ _ h']
        simp [scored_record, hc]
      | some ml =>
        simp only [drive_process_file, hcreate, hc, if_true]
        rw [update_file_record_append_last db _ _ _ _ h']
        simp [scored_record, hc]
    · simp only [drive_process_file, hcreate, hc, if_false]
      rw [update_file_record_append_last db _ _ _ _ h']
      simp [scored_record, hc]

theorem ml_analysis_drive_run (uid : String)
    (files : List (DriveFile × FileOutcome × String)) :
    ∀ st : DBState,
    (∀ p ∈ files, ∀ r ∈ st.jobs, r.id ≠ p.2.2) →
    (files.map (fun p => p.2.2)).Nodup →
    ml_analysis_drive st uid files =
      ⟨⟨st.jobs ++ (drive_batch_records uid files).1, st.users⟩,
       (drive_batch_records uid files).2⟩ := by
  induction files with
  | nil => intro st _ _; simp [ml_analysis_drive, drive_batch_records]
  | cons hd rest ih =>
    intro st h1 h2
    obtain ⟨f, fo, fresh⟩ := hd
    cases fo with
    | createFails => simp [ml_analysis_drive, drive_batch_records]
    | scored o =>
      have hfresh : ∀ r ∈ st.jobs, r.id ≠ fresh := by
        intro r hr
        exact h1 (f, FileOutcome.scored o, fresh) (List.mem_cons_self _ _) r hr
      have hnotin : fresh ∉ rest.map (fun p => p.2.2) := by
        have := h2
        simp only [List.map_cons, List.nodup_cons] at this
        exact this.1
      have h1' : ∀ p ∈ rest,
          ∀ r ∈ st.jobs ++ [scored_record uid f o fresh], r.id ≠ p.2.2 := by
        intro p hp r hr
        rcases List.mem_append.1 hr with hr | hr
        · exact h1 p (List.mem_cons_of_mem _ hp) r hr
        · have : r = scored_record uid f o fresh := List.mem_singleton.1 hr
          subst this
          rw [scored_record_id]
          intro hcontra
          exact hnotin (hcontra ▸ List.mem_map_of_mem (fun p => p.2.2) hp)
      have h2' : (rest.map (fun p => p.2.2)).Nodup := by
        simp only [List.map_cons, List.nodup_cons] at h2
        exact h2.2
      show ml_analysis_drive
          ⟨drive_process_file st.jobs uid f o fresh, st.users⟩ uid rest = _
      rw [drive_process_file_eq st.jobs uid f o fresh hfresh]
      rw [ih ⟨st.jobs ++ [scored_record uid f o fresh], st.users⟩ h1' h2']
      simp [drive_batch_records]

theorem drive_batch_records_all_scored (uid : String)
    (files : List (DriveFile × FileOutcome × String))
    (h : ∀ p ∈ files, p.2.1.isScored = true) :
    (drive_batch_records uid files).2 = false ∧
    (drive_batch_records uid files).1.map (fun r => r.id) =
      files.map (fun p => p.2.2) := by
  induction files with
  | nil => simp [drive_batch_records]
  | cons hd rest ih =>
    obtain ⟨f, fo, fresh⟩ := hd
    cases fo with
    | createFails =>
      exact absurd (h _ (List.mem_cons_self _ _))
        (by simp [FileOutcome.isScored])
    | scored o =>
      have := ih (fun p hp => h p (List.mem_cons_of_mem _ hp))
      simp [drive_batch_records, scored_record_id, this.1, this.2]

theorem drive_batch_records_find (uid : String)
    (files : List (DriveFile × FileOutcome × String))
    (hall : ∀ p ∈ files, p.2.1.isScored = true)
    (hnd : (files.map (fun p => p.2.2)).Nodup) :
    ∀ p ∈ files, ∀ o, p.2.1 = FileOutcome.scored o →
      (drive_batch_records uid files).1.find? (fun r => r.id = p.2.2)
        = some (scored_record uid p.1 o p.2.2) := by
  induction files with
  | nil => intro p hp; exact absurd hp (List.not_mem_nil p)
  | cons hd rest ih =>
    intro p hp o ho
    obtain ⟨f, fo, fresh⟩ := hd
    have hnotin : fresh ∉ rest.map (fun q => q.2.2) := by
      simp only [List.map_cons, List.nodup_cons] at hnd
      exact hnd.1
    have hnd' : (rest.map (fun q => q.2.2)).Nodup := by
      simp only [List.map_cons, List.nodup_cons] at hnd
      exact hnd.2
    have hall' : ∀ q ∈ rest, q.2.1.isScored = true :=
      fun q hq => hall q (List.mem_cons_of_mem _ hq)
    cases fo with
    | createFails =>
      exact absurd (hall _ (List.mem_cons_self _ _))
        (by simp [FileOutcome.isScored])
    | scored o' =>
      rcases List.mem_cons.1 hp with hp | hp
      · subst hp
        have ho' : o' = o := by injection ho
        subst ho'
        simp only [drive_batch_records]
        rw [List.find?_cons_of_pos _ (by simp [scored_record_id])]
      · have hne : (scored_record uid f o' fresh).id ≠ p.2.2 := by
          rw [scored_record_id]
          intro hcontra
          exact hnotin (hcontra ▸ List.mem_map_of_mem (fun q => q.2.2) hp)
        simp only [drive_batch_records]
        rw [List.find?_cons_of_neg _ (by simp [hne])]
        exact ih hall' hnd' p hp o ho

theorem drive_batch_records_abort (uid : String)
    (pre : List (DriveFile × FileOutcome × String)) (fk : DriveFile)
    (idk : String) (post : List (DriveFile × FileOutcome × String))
    (hpre : ∀ p ∈ pre, p.2.1.isScored = true) :
    drive_batch_records uid (pre ++ (fk, FileOutcome.createFails, idk) :: post)
      = ((drive_batch_records uid pre).1, true) := by
  induction pre with
  | nil => simp [drive_batch_records]
  | cons hd rest ih =>
    obtain ⟨f, fo, fresh⟩ := hd
    cases fo with
    | createFails =>
      exact absurd (hpre _ (List.mem_cons_self _ _))
        (by simp [FileOutcome.isScored])
    | scored o =>
      have := ih (fun p hp => hpre p (List.mem_cons_of_mem _ hp))
      simp [drive_batch_records, this]

theorem statusOf_eq_none (db : List ResumeAnalysis) (target : String)
    (h : ∀ r ∈ db, r.id ≠ target) : statusOf db target = none := by
  have : db.find? (fun r => r.id = target) = none := by
    rw [List.find?_eq_none]
    intro x hx
    simp [h x hx]
  simp [statusOf, this]

/-! ## Claim theorems -/

/-- C1 counterexample: a drive batch whose single file is analyzed
successfully (status 200, score 80) completes, the job record ends
COMPLETED — yet the owning user's `analysis_history` is exactly as before
(empty): no result is merged into History, contradicting the claim that
every successfully analyzed file's result is merged on batch completion. -/
theorem drive_history_not_merged_cx :
    (ml_analysis_drive ⟨[], [⟨"u1", "u1@mail.com", [], []⟩]⟩ "u1"
      [(⟨"g1", "resume.pdf", "application/pdf"⟩,
        FileOutcome.scored (ScoreOutcome.resp 200
          (some ⟨some 80, some [("summary", "ok")]⟩)), "job1")]).state.users
      = [⟨"u1", "u1@mail.com", [], []⟩]
    ∧ statusOf (ml_analysis_drive ⟨[], [⟨"u1", "u1@mail.com", [], []⟩]⟩ "u1"
      [(⟨"g1", "resume.pdf", "application/pdf"⟩,
        FileOutcome.scored (ScoreOutcome.resp 200
          (some ⟨some 80, some [("summary", "ok")]⟩)), "job1")]).state.jobs
        "job1"
      = some AnalysisStatus.COMPLETED := by
  constructor
  · rfl
  · rfl

/-- C1 (amended): in remote-folder (drive) mode, batch completion never
touches the users table at all: each file's outcome is recorded only in its
job record, and nothing — neither successes nor failures — is merged into
any user's bounded History list (`save_to_history` is never invoked by the
drive pipeline). -/
theorem drive_users_unchanged (uid : String)
    (files : List (DriveFile × FileOutcome × String)) :
    ∀ st : DBState, (ml_analysis_drive st uid files).state.users = st.users := by
  induction files with
  | nil => intro st; rfl
  | cons hd rest ih =>
    intro st
    obtain ⟨f, fo, fresh⟩ := hd
    cases fo with
    | createFails => rfl
    | scored o => exact ih ⟨drive_process_file st.jobs uid f o fresh, st.users⟩

/-- C2: for every drive batch (fresh job ids distinct and absent from the
initial table) in which every file reaches the scoring phase, each file's
job ends with exactly the status its own scoring outcome dictates —
COMPLETED for a parsed 200 response, FAILED for a non-200 status, a JSON
parse error, or a raised call — independently of its siblings' outcomes,
and no exception escapes the batch task. -/
theorem drive_per_file_isolation (st : DBState) (uid : String)
    (files : List (DriveFile × FileOutcome × String))
    (h1 : ∀ p ∈ files, ∀ r ∈ st.jobs, r.id ≠ p.2.2)
    (h2 : (files.map (fun p => p.2.2)).Nodup)
    (h3 : ∀ p ∈ files, p.2.1.isScored = true) :
    (ml_analysis_drive st uid files).raised = false ∧
    ∀ p ∈ files, ∀ o, p.2.1 = FileOutcome.scored o →
      statusOf (ml_analysis_drive st uid files).state.jobs p.2.2
        = some (outcomeStatus o) := by
  rw [ml_analysis_drive_run uid files st h1 h2]
  constructor
  · exact (drive_batch_records_all_scored uid files h3).1
  · intro p hp o ho
    have hjobs : ∀ r ∈ st.jobs,
        (fun r : ResumeAnalysis => decide (r.id = p.2.2)) r = false := by
      intro r hr
      simp [h1 p hp r hr]
    simp only [statusOf]
    rw [find?_append_left_none _ st.jobs _ hjobs]
    rw [drive_batch_records_find uid files h3 h2 p hp o ho]
    simp [scored_record_status]

/-- C2 witness: a batch of three files where the middle one gets a 500
response and the outer two get parsed 200 responses ends with exactly the
middle job FAILED and the other two COMPLETED. -/
theorem drive_per_file_isolation_witness :
    (ml_analysis_drive ⟨[], []⟩ "u1"
      [(⟨"g1", "a.pdf", "application/pdf"⟩,
        FileOutcome.scored (ScoreOutcome.resp 200 (some ⟨some 80, some []⟩)),
        "j1"),
       (⟨"g2", "b.pdf", "application/pdf"⟩,
        FileOutcome.scored (ScoreOutcome.resp 500 none), "j2"),
       (⟨"g3", "c.pdf", "application/pdf"⟩,
        FileOutcome.scored (ScoreOutcome.resp 200 (some ⟨some 60, none⟩)),
        "j3")]).raised = false
    ∧ statusOf (ml_analysis_drive ⟨[], []⟩ "u1"
      [(⟨"g1", "a.pdf", "application/pdf"⟩,
        FileOutcome.scored (ScoreOutcome.resp 200 (some ⟨some 80, some []⟩)),
        "j1"),
       (⟨"g2", "b.pdf", "application/pdf"⟩,
        FileOutcome.scored (ScoreOutcome.resp 500 none), "j2"),
       (⟨"g3", "c.pdf", "application/pdf"⟩,
        FileOutcome.scored (ScoreOutcome.resp 200 (some ⟨some 60, none⟩)),
        "j3")]).state.jobs "j1" = some AnalysisStatus.COMPLETED
    ∧ statusOf (ml_analysis_drive ⟨[], []⟩ "u1"
      [(⟨"g1", "a.pdf", "application/pdf"⟩,
        FileOutcome.scored (ScoreOutcome.resp 200 (some ⟨some 80, some []⟩)),
        "j1"),
       (⟨"g2", "b.pdf", "application/pdf"⟩,
        FileOutcome.scored (ScoreOutcome.resp 500 none), "j2"),
       (⟨"g3", "c.pdf", "application/pdf"⟩,
        FileOutcome.scored (ScoreOutcome.resp 200 (some ⟨some 60, none⟩)),
        "j3")]).state.jobs "j2" = some AnalysisStatus.FAILED
    ∧ statusOf (ml_analysis_drive ⟨[], []⟩ "u1"
      [(⟨"g1", "a.pdf", "application/pdf"⟩,
        FileOutcome.scored (ScoreOutcome.resp 200 (some ⟨some 80, some []⟩)),
        "j1"),
       (⟨"g2", "b.pdf", "application/pdf"⟩,
        FileOutcome.scored (ScoreOutcome.resp 500 none), "j2"),
       (⟨"g3", "c.pdf", "application/pdf"⟩,
        FileOutcome.scored (ScoreOutcome.resp 200 (some ⟨some 60, none⟩)),
        "j3")]).state.jobs "j3" = some AnalysisStatus.COMPLETED := by
  have h := drive_per_file_isolation ⟨[], []⟩ "u1"
    [(⟨"g1", "a.pdf", "application/pdf"⟩,
      FileOutcome.scored (ScoreOutcome.resp 200 (some ⟨some 80, some []⟩)),
      "j1"),
     (⟨"g2", "b.pdf", "application/pdf"⟩,
      FileOutcome.scored (ScoreOutcome.resp 500 none), "j2"),
     (⟨"g3", "c.pdf", "application/pdf"⟩,
      FileOutcome.scored (ScoreOutcome.resp 200 (some ⟨some 60, none⟩)),
      "j3")]
    (by intro p _ r hr; exact absurd hr (List.not_mem_nil r))
    (by simp) (by decide)
  refine ⟨h.1, ?_, ?_, ?_⟩
  · exact h.2 (⟨"g1", "a.pdf", "application/pdf"⟩,
      FileOutcome.scored (ScoreOutcome.resp 200 (some ⟨some 80, some []⟩)),
      "j1") (List.mem_cons_self _ _) _ rfl
  · exact h.2 (⟨"g2", "b.pdf", "application/pdf"⟩,
      FileOutcome.scored (ScoreOutcome.resp 500 none), "j2")
      (List.mem_cons_of_mem _ (List.mem_cons_self _ _)) _ rfl
  · exact h.2 (⟨"g3", "c.pdf", "application/pdf"⟩,
      FileOutcome.scored (ScoreOutcome.resp 200 (some ⟨some 60, none⟩)),
      "j3")
      (List.mem_cons_of_mem _ (List.mem_cons_of_mem _ (List.mem_cons_self _ _)))
      _ rfl

/-- C10: job creation sits outside the per-file fault handler: if
`create_initial_record` raises for the file `(fk, idk)` of a batch, the
exception escapes the batch task, the files before it keep their terminal
records, and neither that file nor any later file gets a job record. -/
theorem drive_create_failure_aborts (st : DBState) (uid : String)
    (pre post : List (DriveFile × FileOutcome × String))
    (fk : DriveFile) (idk : String)
    (hpre : ∀ p ∈ pre, p.2.1.isScored = true)
    (h1 : ∀ p ∈ pre ++ (fk, FileOutcome.createFails, idk) :: post,
        ∀ r ∈ st.jobs, r.id ≠ p.2.2)
    (h2 : ((pre ++ (fk, FileOutcome.createFails, idk) :: post).map
        (fun p => p.2.2)).Nodup) :
    (ml_analysis_drive st uid
        (pre ++ (fk, FileOutcome.createFails, idk) :: post)).raised = true
    ∧ (ml_analysis_drive st uid
        (pre ++ (fk, FileOutcome.createFails, idk) :: post)).state.jobs
      = st.jobs ++ (drive_batch_records uid pre).1
    ∧ statusOf (ml_analysis_drive st uid
        (pre ++ (fk, FileOutcome.createFails, idk) :: post)).state.jobs idk
      = none
    ∧ ∀ p ∈ post,
        statusOf (ml_analysis_drive st uid
          (pre ++ (fk, FileOutcome.createFails, idk) :: post)).state.jobs
          p.2.2 = none := by
  rw [ml_analysis_drive_run uid _ st h1 h2]
  rw [drive_batch_records_abort uid pre fk idk post hpre]
  have hmap : ((pre ++ (fk, FileOutcome.createFails, idk) :: post).map
      (fun p => p.2.2))
      = pre.map (fun p => p.2.2) ++ idk :: post.map (fun p => p.2.2) := by
    simp
  rw [hmap] at h2
  rcases List.nodup_append.1 h2 with ⟨-, -, hdisj⟩
  have hidk_pre : idk ∉ pre.map (fun p => p.2.2) := by
    intro hmem
    exact hdisj hmem (List.mem_cons_self _ _)
  have hrec_ids : ∀ r ∈ (drive_batch_records uid pre).1,
      r.id ∈ pre.map (fun p => p.2.2) := by
    intro r hr
    have hids := (drive_batch_records_all_scored uid pre hpre).2
    rw [← hids]
    exact List.mem_map_of_mem (fun r => r.id) hr
  refine ⟨rfl, rfl, ?_, ?_⟩
  · apply statusOf_eq_none
    intro r hr
    rcases List.mem_append.1 hr with hr | hr
    · exact h1 (fk, FileOutcome.createFails, idk)
        (List.mem_append_right pre (List.mem_cons_self _ _)) r hr
    · intro hcontra
      exact hidk_pre (hcontra ▸ hrec_ids r hr)
  · intro p hp
    apply statusOf_eq_none
    intro r hr
    rcases List.mem_append.1 hr with hr | hr
    · exact h1 p
        (List.mem_append_right pre (List.mem_cons_of_mem _ hp)) r hr
    · intro hcontra
      have hp_pre : p.2.2 ∉ pre.map (fun q => q.2.2) := by
        intro hmem
        exact hdisj hmem
          (List.mem_cons_of_mem _ (List.mem_map_of_mem (fun q => q.2.2) hp))
      exact hp_pre (hcontra ▸ hrec_ids r hr)

/-- C10 witness: in a three-file batch whose middle file's job creation
raises, the task raises, the first file keeps its COMPLETED record, and the
middle and last files have no job record at all. -/
theorem drive_create_failure_aborts_witness :
    (ml_analysis_drive ⟨[], []⟩ "u1"
      [(⟨"g1", "a.pdf", "application/pdf"⟩,
        FileOutcome.scored (ScoreOutcome.resp 200 (some ⟨some 80, some []⟩)),
        "j1"),
       (⟨"g2", "b.pdf", "application/pdf"⟩, FileOutcome.createFails, "j2"),
       (⟨"g3", "c.pdf", "application/pdf"⟩,
        FileOutcome.scored ScoreOutcome.exn, "j3")]).raised = true
    ∧ statusOf (ml_analysis_drive ⟨[], []⟩ "u1"
      [(⟨"g1", "a.pdf", "application/pdf"⟩,
        FileOutcome.scored (ScoreOutcome.resp 200 (some ⟨some 80, some []⟩)),
        "j1"),
       (⟨"g2", "b.pdf", "application/pdf"⟩, FileOutcome.createFails, "j2"),
       (⟨"g3", "c.pdf", "application/pdf"⟩,
        FileOutcome.scored ScoreOutcome.exn, "j3")]).state.jobs "j2" = none
    ∧ statusOf (ml_analysis_drive ⟨[], []⟩ "u1"
      [(⟨"g1", "a.pdf", "application/pdf"⟩,
        FileOutcome.scored (ScoreOutcome.resp 200 (some ⟨some 80, some []⟩)),
        "j1"),
       (⟨"g2", "b.pdf", "application/pdf"⟩, FileOutcome.createFails, "j2"),
       (⟨"g3", "c.pdf", "application/pdf"⟩,
        FileOutcome.scored ScoreOutcome.exn, "j3")]).state.jobs "j3" = none := by
  have h := drive_create_failure_aborts ⟨[], []⟩ "u1"
    [(⟨"g1", "a.pdf", "application/pdf"⟩,
      FileOutcome.scored (ScoreOutcome.resp 200 (some ⟨some 80, some []⟩)),
      "j1")]
    [(⟨"g3", "c.pdf", "application/pdf"⟩,
      FileOutcome.scored ScoreOutcome.exn, "j3")]
    ⟨"g2", "b.pdf", "application/pdf"⟩ "j2"
    (by decide)
    (by intro p _ r hr; exact absurd hr (List.not_mem_nil r))
    (by simp)
  exact ⟨h.1, h.2.2.1, h.2.2.2 _ (List.mem_singleton.2 rfl)⟩

theorem save_to_history_len (u : UserRec) (rs : List HistEntry)
    (h : u.analysis_history.length ≤ 100) :
    (save_to_history u rs).analysis_history.length ≤ 100 := by
  by_cases hrs : rs = []
  · simp only [save_to_history, hrs, if_true]
    exact h
  · simp only [save_to_history, hrs, if_false]
    simp [Nat.min_le_left 100 (rs ++ u.analysis_history).length]

/-- C3: `save_to_history` with an empty result list changes nothing; a
non-empty call makes the history exactly the (up to 100) newest results
followed by what fits of the old entries, so new entries precede all
previously stored ones; and starting from any history within the bound,
any sequence of calls keeps the list at no more than 100 entries. -/
theorem save_to_history_bounded_prepend (u : UserRec) (rs : List HistEntry) :
    save_to_history u [] = u
    ∧ (u.analysis_history.length ≤ 100 →
        (save_to_history u rs).analysis_history.length ≤ 100)
    ∧ (rs ≠ [] →
        (save_to_history u rs).analysis_history
          = rs.take 100 ++ u.analysis_history.take (100 - rs.length))
    ∧ (u.analysis_history.length ≤ 100 →
        ∀ calls : List (List HistEntry),
          (calls.foldl save_to_history u).analysis_history.length ≤ 100) := by
  refine ⟨rfl, save_to_history_len u rs, ?_, ?_⟩
  · intro hrs
    simp only [save_to_history, hrs, if_false]
    exact List.take_append_eq_append_take
  · intro h calls
    induction calls generalizing u with
    | nil => exact h
    | cons c rest ih => exact ih (save_to_history u c) (save_to_history_len u c h)

/-- C3 witness: a user with one stored entry receives two new results:
the empty call is a no-op, the bound holds, the new entries precede the
old one, and a concrete sequence of calls stays within the bound. -/
theorem save_to_history_bounded_prepend_witness :
    save_to_history ⟨"u1", "e", [⟨"old.pdf", []⟩], ["old.pdf"]⟩ [] =
      ⟨"u1", "e", [⟨"old.pdf", []⟩], ["old.pdf"]⟩
    ∧ (save_to_history ⟨"u1", "e", [⟨"old.pdf", []⟩], ["old.pdf"]⟩
        [⟨"n1.pdf", []⟩, ⟨"n2.pdf", []⟩]).analysis_history.length ≤ 100
    ∧ (save_to_history ⟨"u1", "e", [⟨"old.pdf", []⟩], ["old.pdf"]⟩
        [⟨"n1.pdf", []⟩, ⟨"n2.pdf", []⟩]).analysis_history
      = [⟨"n1.pdf", []⟩, ⟨"n2.pdf", []⟩].take 100
        ++ [(⟨"old.pdf", []⟩ : HistEntry)].take (100 - 2)
    ∧ ([[⟨"n1.pdf", []⟩], [], [⟨"n2.pdf", []⟩]].foldl save_to_history
        ⟨"u1", "e", [⟨"old.pdf", []⟩], ["old.pdf"]⟩).analysis_history.length
      ≤ 100 := by
  have h := save_to_history_bounded_prepend
    ⟨"u1", "e", [⟨"old.pdf", []⟩], ["old.pdf"]⟩ [⟨"n1.pdf", []⟩, ⟨"n2.pdf", []⟩]
  exact ⟨h.1, h.2.1 (by decide), h.2.2.1 (by decide),
    h.2.2.2 (by decide) [[⟨"n1.pdf", []⟩], [], [⟨"n2.pdf", []⟩]]⟩

/-- C4 counterexample: a 201 response — an HTTP success (2xx) — carrying a
perfectly valid JSON body does not complete the job: the source compares
`resp.status_code == 200` exactly, so the job is marked FAILED, not
COMPLETED with the body's score. -/
theorem status_201_marks_failed_cx :
    statusOf (ml_analysis_s3
      [⟨"f1", "u1", "resume.pdf", some "k1", AnalysisStatus.PROCESSING, 0,
        some []⟩]
      "f1" (ScoreOutcome.resp 201 (some ⟨some 80, some []⟩))) "f1"
      = some AnalysisStatus.FAILED
    ∧ statusOf (ml_analysis_s3
      [⟨"f1", "u1", "resume.pdf", some "k1", AnalysisStatus.PROCESSING, 0,
        some []⟩]
      "f1" (ScoreOutcome.resp 201 (some ⟨some 80, some []⟩))) "f1"
      ≠ some AnalysisStatus.COMPLETED := by
  constructor
  · rfl
  · decide

/-- C4 (amended): for a response with status exactly 200 (not any 2xx)
whose JSON body parses, the matching job is updated to COMPLETED with
score `match_score` (default 0 when the key is absent) and details
`analysis_details` (default empty map when absent) — in the S3 pipeline
and in the drive pipeline alike. -/
theorem status_200_completed (db : List ResumeAnalysis) (fid : String)
    (body : MLBody) (r : ResumeAnalysis)
    (hfind : db.find? (fun x => x.id = fid) = some r) :
    (∃ r', (ml_analysis_s3 db fid (ScoreOutcome.resp 200 (some body))).find?
          (fun x => x.id = fid) = some r'
        ∧ r'.status = AnalysisStatus.COMPLETED
        ∧ r'.match_score = body.match_score.getD 0
        ∧ r'.details = some (body.analysis_details.getD []))
    ∧ ∀ uid : String, ∀ f : DriveFile, ∀ fresh : String,
        (∀ x ∈ db, x.id ≠ fresh) →
        ∃ r'', (drive_process_file db uid f
              (ScoreOutcome.resp 200 (some body)) fresh).find?
            (fun x => x.id = fresh) = some r''
          ∧ r''.status = AnalysisStatus.COMPLETED
          ∧ r''.match_score = body.match_score.getD 0
          ∧ r''.details = some (body.analysis_details.getD []) := by
  constructor
  · refine ⟨applyUpdate r AnalysisStatus.COMPLETED
      (some (body.match_score.getD 0)) (some (body.analysis_details.getD [])),
      ?_, rfl, rfl, rfl⟩
    have hs3 : ml_analysis_s3 db fid (ScoreOutcome.resp 200 (some body)) =
        (update_file_record db fid AnalysisStatus.COMPLETED
          (some (body.match_score.getD 0))
          (some (body.analysis_details.getD []))).1 := by
      simp [ml_analysis_s3]
    rw [hs3, (update_file_record_find db fid _ _ _).1, hfind]
    rfl
  · intro uid f fresh hfresh
    rw [drive_process_file_eq db uid f _ fresh hfresh]
    have hskip : ∀ x ∈ db,
        (fun x : ResumeAnalysis => decide (x.id = fresh)) x = false := by
      intro x hx
      simp [hfresh x hx]
    refine ⟨scored_record uid f (ScoreOutcome.resp 200 (some body)) fresh,
      ?_, ?_, ?_, ?_⟩
    · rw [find?_append_left_none _ db _ hskip]
      exact List.find?_cons_of_pos _ (by simp [scored_record_id])
    · simp [scored_record_status, outcomeStatus]
    · simp [scored_record, applyUpdate]
    · simp [scored_record, applyUpdate]

/-- C4 witness: a 200 response whose body has `match_score` 42 and no
`analysis_details` completes the target job with score 42 and empty
details, in both pipelines. -/
theorem status_200_completed_witness :
    (∃ r', (ml_analysis_s3
        [⟨"f1", "u1", "resume.pdf", some "k1", AnalysisStatus.PROCESSING, 0,
          some []⟩]
        "f1" (ScoreOutcome.resp 200 (some ⟨some 42, none⟩))).find?
          (fun x => x.id = "f1") = some r'
      ∧ r'.status = AnalysisStatus.COMPLETED
      ∧ r'.match_score = 42
      ∧ r'.details = some [])
    ∧ ∃ r'', (drive_process_file
        [⟨"f1", "u1", "resume.pdf", some "k1", AnalysisStatus.PROCESSING, 0,
          some []⟩]
        "u1" ⟨"g1", "a.pdf", "application/pdf"⟩
        (ScoreOutcome.resp 200 (some ⟨some 42, none⟩)) "j9").find?
          (fun x => x.id = "j9") = some r''
      ∧ r''.status = AnalysisStatus.COMPLETED
      ∧ r''.match_score = 42
      ∧ r''.details = some [] := by
  have h := status_200_completed
    [⟨"f1", "u1", "resume.pdf", some "k1", AnalysisStatus.PROCESSING, 0,
      some []⟩]
    "f1" ⟨some 42, none⟩
    ⟨"f1", "u1", "resume.pdf", some "k1", AnalysisStatus.PROCESSING, 0,
      some []⟩
    (by rfl)
  exact ⟨h.1, h.2 "u1" ⟨"g1", "a.pdf", "application/pdf"⟩ "j9" (by decide)⟩

/-- C5: `update_file_record` is a partial update: the stored score and
details are overwritten only when the corresponding argument is provided;
all identifying fields are preserved; and a call whose job id matches no
stored job changes nothing and returns nothing rather than raising. -/
theorem update_file_record_selective (db : List ResumeAnalysis) (fid : String)
    (status : AnalysisStatus) (score : Option Rat) (details : Option Details) :
    ((∀ r ∈ db, r.id ≠ fid) →
      update_file_record db fid status score details = (db, none))
    ∧ ∀ r, db.find? (fun x => x.id = fid) = some r →
        ∃ r', (update_file_record db fid status score details).2 = some r'
          ∧ r'.status = status
          ∧ r'.match_score =
              (match score with | some s => s | none => r.match_score)
          ∧ r'.details =
              (match details with | some d => some d | none => r.details)
          ∧ r'.id = r.id ∧ r'.user_id = r.user_id
          ∧ r'.filename = r.filename ∧ r'.s3_key = r.s3_key := by
  constructor
  · exact update_file_record_nomatch db fid status score details
  · intro r hr
    refine ⟨applyUpdate r status score details, ?_,
      rfl, rfl, rfl, rfl, rfl, rfl, rfl⟩
    rw [(update_file_record_find db fid status score details).2, hr]
    rfl

/-- C5 witness: updating a missing id is a no-op returning nothing; an
update with no score/details provided flips only the status and keeps the
stored score 7 and details untouched. -/
theorem update_file_record_selective_witness :
    update_file_record
      [⟨"a1", "u1", "x.pdf", none, AnalysisStatus.PROCESSING, 7,
        some [("k", "v")]⟩] "zzz" AnalysisStatus.FAILED none none
      = ([⟨"a1", "u1", "x.pdf", none, AnalysisStatus.PROCESSING, 7,
          some [("k", "v")]⟩], none)
    ∧ ∃ r', (update_file_record
        [⟨"a1", "u1", "x.pdf", none, AnalysisStatus.PROCESSING, 7,
          some [("k", "v")]⟩] "a1" AnalysisStatus.FAILED none none).2 = some r'
      ∧ r'.status = AnalysisStatus.FAILED
      ∧ r'.match_score = 7
      ∧ r'.details = some [("k", "v")]
      ∧ r'.id = "a1" ∧ r'.user_id = "u1"
      ∧ r'.filename = "x.pdf" ∧ r'.s3_key = none := by
  constructor
  · exact (update_file_record_selective
      [⟨"a1", "u1", "x.pdf", none, AnalysisStatus.PROCESSING, 7,
        some [("k", "v")]⟩] "zzz" AnalysisStatus.FAILED none none).1
      (by decide)
  · exact (update_file_record_selective
      [⟨"a1", "u1", "x.pdf", none, AnalysisStatus.PROCESSING, 7,
        some [("k", "v")]⟩] "a1" AnalysisStatus.FAILED none none).2
      ⟨"a1", "u1", "x.pdf", none, AnalysisStatus.PROCESSING, 7,
        some [("k", "v")]⟩ (by rfl)

/-- C6: every job record produced by `create_initial_record`, for any
owner, filename, optional source key and optional id, starts in status
PROCESSING (never the schema-default PENDING), with score 0 and empty
details, and is appended to the table. -/
theorem create_initial_record_fields (db : List ResumeAnalysis)
    (user_id filename : String) (s3_key : Option String)
    (file_id : Option String) (fresh_uuid : String) :
    (create_initial_record db user_id filename s3_key file_id
        fresh_uuid).2.status = AnalysisStatus.PROCESSING
    ∧ (create_initial_record db user_id filename s3_key file_id
        fresh_uuid).2.status ≠ AnalysisStatus.PENDING
    ∧ (create_initial_record db user_id filename s3_key file_id
        fresh_uuid).2.match_score = 0
    ∧ (create_initial_record db user_id filename s3_key file_id
        fresh_uuid).2.details = some []
    ∧ (create_initial_record db user_id filename s3_key file_id
        fresh_uuid).1
      = db ++ [(create_initial_record db user_id filename s3_key file_id
          fresh_uuid).2] := by
  exact ⟨rfl, by simp [create_initial_record], rfl, rfl, rfl⟩

theorem dropWhile_head_false {α : Type} (p : α → Bool) :
    ∀ (l : List α) (c : α) (t : List α), l.dropWhile p = c :: t → p c = false := by
  intro l
  induction l with
  | nil => intro c t h; cases h
  | cons a as ih =>
    intro c t h
    rw [List.dropWhile_cons] at h
    by_cases hp : p a = true
    · rw [if_pos hp] at h
      exact ih c t h
    · rw [if_neg hp] at h
      injection h with h1 _
      subst h1
      exact Bool.eq_false_iff.mpr hp

theorem dropWhile_append_exists {α : Type} (p : α → Bool) (l : List α) :
    ∃ q, l = q ++ l.dropWhile p := by
  induction l with
  | nil => exact ⟨[], rfl⟩
  | cons a as ih =>
    rw [List.dropWhile_cons]
    by_cases hp : p a = true
    · rw [if_pos hp]
      obtain ⟨q, hq⟩ := ih
      exact ⟨a :: q, by rw [List.cons_append, ← hq]⟩
    · rw [if_neg hp]
      exact ⟨[], rfl⟩

theorem dropWhile_of_head_false {α : Type} (p : α → Bool) (c : α) (t : List α)
    (h : p c = false) : (c :: t).dropWhile p = c :: t := by
  rw [List.dropWhile_cons, if_neg]
  simp [h]

theorem stripList_idem {α : Type} (p : α → Bool) (l : List α) :
    stripList p (stripList p l) = stripList p l := by
  cases hB : (l.dropWhile p).reverse.dropWhile p with
  | nil =>
    unfold stripList
    rw [hB]
    rfl
  | cons b bs =>
    have hpb : p b = false := dropWhile_head_false p _ b bs hB
    obtain ⟨q, hq⟩ := dropWhile_append_exists p (l.dropWhile p).reverse
    rw [hB] at hq
    have hA : l.dropWhile p = (b :: bs).reverse ++ q.reverse := by
      have h2 := congrArg List.reverse hq
      simpa using h2
    obtain ⟨c, t', hct⟩ : ∃ c t', (b :: bs).reverse = c :: t' := by
      cases h3 : (b :: bs).reverse with
      | nil => exact absurd h3 (by simp)
      | cons c t' => exact ⟨c, t', rfl⟩
    have hpc : p c = false := by
      apply dropWhile_head_false p l c (t' ++ q.reverse)
      rw [hA, hct]
      simp
    have hX : stripList p l = (b :: bs).reverse := by
      unfold stripList
      rw [hB]
    rw [hX]
    unfold stripList
    rw [hct, dropWhile_of_head_false p c t' hpc, ← hct]
    rw [List.reverse_reverse]
    rw [dropWhile_of_head_false p b bs hpb]

theorem pyStrip_empty : pyStrip "" = "" := rfl

theorem pyStrip_idem (s : String) : pyStrip (pyStrip s) = pyStrip s := by
  show String.mk (stripList isPySpace (stripList isPySpace s.data)) = _
  rw [stripList_idem]
  rfl

theorem extract_text_strip_form (content : List Nat) (mime_type : String)
    (o : ParseOracle) : ∃ t, extract_text content mime_type o = pyStrip t := by
  by_cases hc : content = []
  · exact ⟨"", by simp [extract_text, hc, pyStrip_empty]⟩
  · exact ⟨extract_raw_text mime_type o, by simp [extract_text, hc]⟩

/-- C7: `extract_text` returns the empty string for empty byte content
under every media type, and for non-empty content under any media type
other than the PDF, word-processing-document and plain-text types,
whatever the parser outcomes are. -/
theorem extract_text_empty_or_unknown (content : List Nat)
    (mime_type : String) (o : ParseOracle) :
    extract_text [] mime_type o = ""
    ∧ (content ≠ [] →
        mime_type ≠ "application/pdf" →
        mime_type ≠
          "application/vnd.openxmlformats-officedocument.wordprocessingml.document" →
        mime_type ≠ "text/plain" →
        extract_text content mime_type o = "") := by
  constructor
  · rfl
  · intro hc h1 h2 h3
    simp [extract_text, extract_raw_text, hc, h1, h2, h3, pyStrip_empty]

/-- C7 witness: empty bytes under an image media type give `""`, and
non-empty bytes under an unrecognized media type give `""` even when every
parser oracle would have produced text. -/
theorem extract_text_empty_or_unknown_witness :
    extract_text [] "image/png" ⟨none, none, "zz"⟩ = ""
    ∧ extract_text [7] "image/png" ⟨some ["a"], some ["b"], "c"⟩ = "" := by
  have h0 := extract_text_empty_or_unknown [] "image/png" ⟨none, none, "zz"⟩
  have h1 := extract_text_empty_or_unknown [7] "image/png"
    ⟨some ["a"], some ["b"], "c"⟩
  exact ⟨h0.1, h1.2 (by decide) (by decide) (by decide) (by decide)⟩

/-- C8: `extract_text` never propagates a parser fault — it is modelled as
a total function, and when PyPDF2 or python-docx raises, the text
recovered so far is the initial `""` (the source assigns `text` only at
the end of each branch), so the result degrades to the empty string;
moreover every returned string is already trimmed of leading and trailing
whitespace (stripping it again changes nothing). -/
theorem extract_text_faults_degrade (content : List Nat)
    (mime_type : String) (o : ParseOracle) :
    (content ≠ [] → mime_type = "application/pdf" → o.pdf_pages = none →
      extract_text content mime_type o = "")
    ∧ (content ≠ [] →
        mime_type =
          "application/vnd.openxmlformats-officedocument.wordprocessingml.document" →
        o.docx_paragraphs = none →
        extract_text content mime_type o = "")
    ∧ pyStrip (extract_text content mime_type o)
        = extract_text content mime_type o := by
  refine ⟨?_, ?_, ?_⟩
  · intro hc hm hp
    subst hm
    simp [extract_text, extract_raw_text, hc, hp, pyStrip_empty]
  · intro hc hm hp
    subst hm
    simp [extract_text, extract_raw_text, hc, hp, pyStrip_empty]
  · obtain ⟨t, ht⟩ := extract_text_strip_form content mime_type o
    rw [ht, pyStrip_idem]

/-- C8 witness: a PDF whose parser raises yields `""`, a docx whose parser
raises yields `""`, and a plain-text result with surrounding whitespace
comes back already trimmed. -/
theorem extract_text_faults_degrade_witness :
    extract_text [1] "application/pdf" ⟨none, some ["x"], "y"⟩ = ""
    ∧ extract_text [1]
        "application/vnd.openxmlformats-officedocument.wordprocessingml.document"
        ⟨some ["x"], none, "y"⟩ = ""
    ∧ pyStrip (extract_text [1] "text/plain" ⟨none, none, "  hi  "⟩)
        = extract_text [1] "text/plain" ⟨none, none, "  hi  "⟩ := by
  have h1 := extract_text_faults_degrade [1] "application/pdf"
    ⟨none, some ["x"], "y"⟩
  have h2 := extract_text_faults_degrade [1]
    "application/vnd.openxmlformats-officedocument.wordprocessingml.document"
    ⟨some ["x"], none, "y"⟩
  have h3 := extract_text_faults_degrade [1] "text/plain" ⟨none, none, "  hi  "⟩
  exact ⟨h1.1 (by decide) rfl rfl, h2.2.1 (by decide) rfl rfl, h3.2.2⟩

/-- C9 counterexample: the exact JSON payloads the dispatcher sends — for
the S3 path `{filename, file_url, description}` and for the drive path
`{file_id, google_token, filename, mime_type, description}` — consist of
plain string values only at a concrete input, while the spec-modelled
tokenizer produces a non-empty lowercase token list; no tokenized word
sequence derived from extracted text is part of any request, so the
Dispatcher does not tokenize before sending. -/
theorem dispatch_payload_no_tokens_cx :
    ((s3_payload "resume.pdf" "https://bucket/resume.pdf"
        "backend engineer").all
      (fun kv => match kv.2 with
        | JVal.str _ => true
        | JVal.arr _ => false)) = true
    ∧ ((drive_payload ⟨"g1", "resume.pdf", "application/pdf"⟩ "tok"
        "backend engineer").all
      (fun kv => match kv.2 with
        | JVal.str _ => true
        | JVal.arr _ => false)) = true
    ∧ tokenize "Hello, World!" = ["hello", "world"] := by
  refine ⟨rfl, rfl, ?_⟩
  rfl

/-- C9 (amended): the Dispatcher performs no tokenization: for all
arguments, each request payload consists of exactly its named fields, and
every value is a plain string (filename, blob URL or Drive reference data,
and the description) — never a word-token list derived from extracted
text; `extract_text` is not invoked anywhere on the dispatch path. -/
theorem dispatch_payload_strings_only (filename s3_url description : String)
    (tok : String) (f : DriveFile) :
    (s3_payload filename s3_url description).map (fun kv => kv.1)
      = ["filename", "file_url", "description"]
    ∧ (∀ kv ∈ s3_payload filename s3_url description, ∃ v, kv.2 = JVal.str v)
    ∧ (drive_payload f tok description).map (fun kv => kv.1)
      = ["file_id", "google_token", "filename", "mime_type", "description"]
    ∧ (∀ kv ∈ drive_payload f tok description, ∃ v, kv.2 = JVal.str v) := by
  refine ⟨rfl, ?_, rfl, ?_⟩
  · intro kv hkv
    fin_cases hkv <;> exact ⟨_, rfl⟩
  · intro kv hkv
    fin_cases hkv <;> exact ⟨_, rfl⟩

/-- C9 witness: at concrete arguments the S3 payload has exactly the three
string fields, and its first field's value is the plain string value the
theorem guarantees. -/
theorem dispatch_payload_strings_only_witness :
    (s3_payload "a.pdf" "https://u" "jd").map (fun kv => kv.1)
      = ["filename", "file_url", "description"]
    ∧ ∃ v, (("filename", JVal.str "a.pdf") : String × JVal).2
        = JVal.str v := by
  have h := dispatch_payload_strings_only "a.pdf" "https://u" "jd" "t"
    ⟨"g", "n", "m"⟩
  exact ⟨h.1, h.2.1 ("filename", JVal.str "a.pdf") (List.mem_cons_self _ _)⟩

end BiasBreaker
